import Mathlib

/-!
Verification development for the IcanDownloader ingestion pipeline.

Python strings are modelled as Lean `String` (with `String.data : List Char`
for character-level work); Python `str.strip` / regex character classes are
modelled over the ASCII whitespace/digit sets that the program's inputs use.
Dates and timestamps are modelled as opaque `Nat` values; wall-clock durations
are modelled as `0` since no claim depends on them.  Fallible Python code is
modelled with `Except String` (the `String` being the exception message).
-/

namespace IcanDL

/-- Whitespace as matched by Python `str.strip()` / `\s` for the ASCII range
(space, tab, newline, carriage return, vertical tab, form feed). -/
def isPySpace (c : Char) : Bool :=
  c == ' ' || c == '\t' || c == '\n' || c == '\r' || c == Char.ofNat 11 || c == Char.ofNat 12

/-- Python `str.strip()` on a character list: drop leading and trailing whitespace. -/
def pyStrip (l : List Char) : List Char :=
  ((l.dropWhile isPySpace).reverse.dropWhile isPySpace).reverse

/-- Python `str.rstrip('.')`: drop all trailing dots. -/
def rstripDots (l : List Char) : List Char :=
  (l.reverse.dropWhile (fun c => c == '.')).reverse

/-- Python `str.upper()` on the ASCII range. -/
def pyUpper (s : String) : String :=
  ⟨s.data.map Char.toUpper⟩

/-- Value of a decimal digit string, as computed by Python `int(...)` on an
all-digit string. -/
def natOfDigits (l : List Char) : Nat :=
  l.foldl (fun a c => 10 * a + (c.toNat - 48)) 0

/-! ## Data model (src/models) -/

/-- ZoneRecord (src/src/models/zone_record.py): one parsed DNS record. -/
structure ZoneRecord where
  domain_name : String
  tld : String
  record_type : String
  record_data : String
  ttl : Nat
  download_date : Nat
  deriving Repr, DecidableEq

/-- DownloadResult (src/src/models/download_result.py). -/
structure DownloadResult where
  tld : String
  file_path : String
  file_size : Nat
  download_duration : Nat
  records_count : Nat := 0
  parse_duration : Nat := 0
  status : String := "success"
  error_message : Option String := none
  deriving Repr, DecidableEq

/-- DownloadResult.is_success. -/
def DownloadResult.is_success (r : DownloadResult) : Bool :=
  r.status == "success"

/-! ## Zone parser (src/src/services/zone_parser.py) -/

namespace ZoneParser

/-- SUPPORTED_RECORD_TYPES from ZoneParser. -/
def SUPPORTED_RECORD_TYPES : List String :=
  ["NS", "A", "AAAA", "CNAME", "MX", "TXT", "SOA"]

/-- Result of matching `ZONE_LINE_PATTERN` against a line: the four captured
groups (domain, ttl digits, record type, rdata). -/
structure LineGroups where
  g1 : List Char
  g2 : List Char
  g3 : List Char
  g4 : List Char
  deriving Repr, DecidableEq

/-- Matcher for the regex `^(\S+)\s+(\d+)\s+IN\s+(\S+)\s+(.+)$` with
`re.IGNORECASE`, specialised by standard backtracking reasoning to a
tokenizer: each `(\S+)` / `\s+` / `(\d+)` run is the maximal such run (the
following mandatory class is disjoint from the current one), the characters
of `IN` are matched case-insensitively, and the final `(.+)` takes the whole
remainder, except that when the remainder is empty the preceding `\s+` gives
one whitespace character back to `(.+)`.  Lines are assumed to contain no
interior newline (true for lines produced by iterating a text file). -/
def matchZoneLine (l : List Char) : Option LineGroups :=
  let g1 := l.takeWhile (fun c => !isPySpace c)
  let r1 := l.dropWhile (fun c => !isPySpace c)
  if g1 = [] then none else
  let w1 := r1.takeWhile isPySpace
  let r2 := r1.dropWhile isPySpace
  if w1 = [] then none else
  let g2 := r2.takeWhile Char.isDigit
  let r3 := r2.dropWhile Char.isDigit
  if g2 = [] then none else
  let w2 := r3.takeWhile isPySpace
  let r4 := r3.dropWhile isPySpace
  if w2 = [] then none else
  match r4 with
  | ci :: cn :: r5 =>
    if (ci == 'I' || ci == 'i') && (cn == 'N' || cn == 'n') then
      let w3 := r5.takeWhile isPySpace
      let r6 := r5.dropWhile isPySpace
      if w3 = [] then none else
      let g3 := r6.takeWhile (fun c => !isPySpace c)
      let r7 := r6.dropWhile (fun c => !isPySpace c)
      if g3 = [] then none else
      let w4 := r7.takeWhile isPySpace
      let r8 := r7.dropWhile isPySpace
      if w4 = [] then none else
      if r8 = [] then
        if 2 ≤ w4.length then some ⟨g1, g2, g3, [w4.getLastD ' ']⟩ else none
      else some ⟨g1, g2, g3, r8⟩
    else none
  | _ => none

/-- ZoneParser._parse_line: strip the line; skip blanks, comments (`;`) and
directives (`$`); match the zone-line regex; uppercase the record type and
require it supported; convert the ttl digits; strip trailing dots from the
domain and from the (stripped) rdata.  Returns `none` for every skipped
line; the `int(ttl_str)` conversion cannot fail because the regex only
captures digit runs. -/
def parse_line (tld : String) (download_date : Nat) (line : String) : Option ZoneRecord :=
  let l := pyStrip line.data
  if l = [] then none
  else if l.head? = some ';' || l.head? = some '$' then none
  else
    match matchZoneLine l with
    | none => none
    | some g =>
      let record_type := pyUpper ⟨g.g3⟩
      if record_type ∈ SUPPORTED_RECORD_TYPES then
        some
          { domain_name := ⟨rstripDots g.g1⟩
            tld := tld
            record_type := record_type
            record_data := ⟨rstripDots (pyStrip g.g4)⟩
            ttl := natOfDigits g.g2
            download_date := download_date }
      else none

/-- ZoneParser.parse_zone_file at the line level: the sequence of records
yielded for a file, given its decoded lines (the generator body applies
`_parse_line` to each line and yields the non-`None` results; line numbers
are used only for logging). -/
def parse_zone_file (tld : String) (download_date : Nat) (lines : List String) :
    List ZoneRecord :=
  lines.filterMap (parse_line tld download_date)

/-- Loop body of ZoneParser.parse_zone_file_chunked: walk the lines keeping
the current buffered chunk and the last emitted chunk number; emit the chunk
as soon as it reaches `chunk_size` records, and emit the final partial chunk
if non-empty (the gc / sleep calls do not affect the yielded values). -/
def chunkedGo (tld : String) (download_date : Nat) (chunk_size : Nat) :
    List String → List ZoneRecord → Nat → List (List ZoneRecord × Nat)
  | [], chunk, n => if chunk = [] then [] else [(chunk, n + 1)]
  | line :: rest, chunk, n =>
    match parse_line tld download_date line with
    | none => chunkedGo tld download_date chunk_size rest chunk n
    | some r =>
      let chunk1 := chunk ++ [r]
      if chunk_size ≤ chunk1.length then
        (chunk1, n + 1) :: chunkedGo tld download_date chunk_size rest [] (n + 1)
      else
        chunkedGo tld download_date chunk_size rest chunk1 n

/-- ZoneParser.parse_zone_file_chunked at the line level: the sequence of
`(chunk, chunk_number)` pairs yielded for a file given its decoded lines. -/
def parse_zone_file_chunked (tld : String) (download_date : Nat) (chunk_size : Nat)
    (lines : List String) : List (List ZoneRecord × Nat) :=
  chunkedGo tld download_date chunk_size lines [] 0

end ZoneParser

/-! ## Exact IEEE-754 binary64 model for the progress computation

`JobStatus.update_progress` computes `int((completed / total) * 100)` in
Python, i.e. a correctly rounded double division, a correctly rounded double
multiplication by the exact constant `100.0`, and truncation toward zero.
The model below computes the same value exactly with integer arithmetic:
a positive finite double is a pair `(m, e)` with `2^52 ≤ m < 2^53` (or
`m = 0` for zero) denoting `m · 2^e`, and `normalizeRound` performs the
round-to-nearest, ties-to-even normalization of an exact positive rational
`(num/den) · 2^e`.  The model covers the normal range, which contains every
value these computations can produce for job counts below astronomically
large bounds (no overflow, underflow or subnormals arise). -/

/-- Fuel bound for the normalization loop: a gross but structurally simple
over-approximation of the number of doublings needed to bring `num/den`
into `[2^52, 2^53)` (at most `53 + log2 num + log2 den` are ever used). -/
def normFuel (num den : Nat) : Nat :=
  120 + num + den

/-- Round the positive rational `(num/den) · 2^e` to 53 significant bits,
round-to-nearest ties-to-even, returning the significand and exponent. -/
def normalizeRound : Nat → Nat → Nat → Int → Nat × Int
  | 0, _, _, _ => (0, 0)
  | fuel + 1, num, den, e =>
    if num < 2 ^ 52 * den then normalizeRound fuel (2 * num) den (e - 1)
    else if 2 ^ 53 * den ≤ num then normalizeRound fuel num (2 * den) (e + 1)
    else
      let q := num / den
      let r := num % den
      let m :=
        if 2 * r < den then q
        else if den < 2 * r then q + 1
        else if q % 2 = 0 then q else q + 1
      if m = 2 ^ 53 then (2 ^ 52, e + 1) else (m, e)

/-- The double produced by Python `c / T` for naturals (correctly rounded
binary64 division), as a significand/exponent pair; `(0, 0)` encodes `0.0`. -/
def roundDiv (c T : Nat) : Nat × Int :=
  if c = 0 ∨ T = 0 then (0, 0) else normalizeRound (normFuel c T) c T 0

/-- The double produced by multiplying `(m, e)` by the exact double `100.0`
(correctly rounded binary64 multiplication). -/
def mulRound100 (m : Nat) (e : Int) : Nat × Int :=
  if m = 0 then (0, 0) else normalizeRound (normFuel (m * 100) 1) (m * 100) 1 e

/-- Python `int(x)` for a nonnegative double `(m, e)`: truncation toward
zero. -/
def truncF (p : Nat × Int) : Nat :=
  if 0 ≤ p.2 then p.1 * 2 ^ p.2.toNat else p.1 / 2 ^ (-p.2).toNat

/-- The value of Python `int((c / T) * 100)` for naturals `c`, `T` with
`T > 0` (and `0` when `T = 0`, matching the guarded expression). -/
def pyProgressNat (c T : Nat) : Nat :=
  let d := roundDiv c T
  truncF (mulRound100 d.1 d.2)

/-- The value of `int((completed / total) * 100) if total > 0 else 0` for
Python integers: double arithmetic is sign-symmetric and `int()` truncates
toward zero, so negative numerators reduce to the natural-number case. -/
def pyProgress (completed total : Int) : Int :=
  if 0 < total then
    if 0 ≤ completed then (pyProgressNat completed.toNat total.toNat : Int)
    else -(pyProgressNat (-completed).toNat total.toNat : Int)
  else 0

/-! ## JobStatus (src/src/models/job_status.py)

`datetime` values are modelled as opaque `Nat` timestamps; `datetime.now()`
is passed in by the caller as `now`. -/

/-- JobStatus dataclass with its Python default field values. -/
structure JobStatus where
  state : String := "idle"
  current_tld : Option String := none
  progress_percent : Int := 0
  total_tlds : Int := 0
  completed_tlds : Int := 0
  started_at : Option Nat := none
  deriving Repr, DecidableEq

/-- A freshly constructed JobStatus() with all defaults. -/
def JobStatus.init : JobStatus := {}

/-- JobStatus.is_running property. -/
def JobStatus.is_running (js : JobStatus) : Bool :=
  js.state == "running"

/-- JobStatus.update_progress: set the counters and the current TLD, and
recompute `progress_percent` with Python float arithmetic. -/
def JobStatus.update_progress (js : JobStatus) (completed total : Int)
    (current_tld : String) : JobStatus :=
  { js with
    completed_tlds := completed
    total_tlds := total
    current_tld := some current_tld
    progress_percent := pyProgress completed total }

/-- JobStatus.start: mark running, reset counters, record the start time. -/
def JobStatus.start (js : JobStatus) (total_tlds : Int) (now : Nat) : JobStatus :=
  { js with
    state := "running"
    total_tlds := total_tlds
    completed_tlds := 0
    progress_percent := 0
    started_at := some now }

/-- JobStatus.complete: back to idle, clear the current TLD, 100 percent. -/
def JobStatus.complete (js : JobStatus) : JobStatus :=
  { js with
    state := "idle"
    current_tld := none
    progress_percent := 100 }

/-- The operations performed on the orchestrator's JobStatus (each one is
executed under the orchestrator's lock). -/
inductive JobOp where
  | startOp (total_tlds : Int) (now : Nat)
  | updateProgressOp (completed total : Int) (current_tld : String)
  | completeOp
  deriving Repr, DecidableEq

/-- Apply one JobStatus operation. -/
def applyOp (js : JobStatus) : JobOp → JobStatus
  | .startOp total now => js.start total now
  | .updateProgressOp completed total tld => js.update_progress completed total tld
  | .completeOp => js.complete

/-- Well-formedness of an operation as issued by the orchestrator: totals
are list lengths, hence nonnegative. -/
def OpWF : JobOp → Prop
  | .startOp total _ => 0 ≤ total
  | .updateProgressOp _ total _ => 0 ≤ total
  | .completeOp => True

/-- The JobStatus invariant of the spec: a running status has its start time
set and a nonnegative TLD total. -/
def StatusInv (js : JobStatus) : Prop :=
  js.state = "running" → js.started_at.isSome = true ∧ 0 ≤ js.total_tlds

/-! ## CZDS client (src/src/services/czds_client.py)

HTTP traffic is modelled by a response oracle indexed by the attempt number
of the enclosing retry loop (each loop iteration performs exactly one
request).  `time.sleep` calls are recorded in a sleep trace.  Raised
exceptions are `Except.error` carrying the exception message. -/

namespace CZDSClient

/-- RetryConfig dataclass (delays are Python floats; the values involved —
base·2^attempt and the 60-second cap — are all exactly representable, so
rationals model them exactly). -/
structure RetryConfig where
  max_retries : Nat := 3
  base_delay : ℚ := 1
  max_delay : ℚ := 60
  deriving DecidableEq

/-- CZDSClient._calculate_backoff_delay: `min(base_delay · 2^attempt,
max_delay)`. -/
def calculate_backoff_delay (cfg : RetryConfig) (attempt : Nat) : ℚ :=
  min (cfg.base_delay * 2 ^ attempt) cfg.max_delay

/-- One recorded `time.sleep`: either the server-supplied Retry-After value
of a 429 response, or a computed exponential backoff delay. -/
inductive Sleep where
  | retryAfterSleep (seconds : Nat)
  | backoffSleep (seconds : ℚ)
  deriving DecidableEq

/-- Outcome of one authentication POST. -/
inductive AuthResp where
  | okResp (token : String)
  | unauthorized
  | rateLimited (retryAfter : Nat)
  | httpError (code : Nat) (body : String)
  | timeoutErr
  | requestError (msg : String)
  deriving Repr, DecidableEq

/-- Python rendering of `last_error` inside the f-string: `None` when no
attempt recorded an error. -/
def renderLastError : Option String → String
  | none => "None"
  | some s => s

/-- The `last_error` value recorded by the authenticate loop for a response
(unchanged for responses that do not record one). -/
def authFailMsg (r : AuthResp) (lastError : Option String) : Option String :=
  match r with
  | .httpError code body => some ("HTTP " ++ toString code ++ ": " ++ body)
  | .timeoutErr => some "Request timeout"
  | .requestError msg => some msg
  | _ => lastError

/-- Loop of CZDSClient.authenticate: `remaining` counts the iterations the
`for attempt in range(max_retries)` loop still has, `attempt` is the current
index.  A 200 returns the token; a 401 raises immediately; a 429 sleeps the
Retry-After value and moves to the next iteration; any other failure records
`last_error` and sleeps the exponential backoff unless this was the last
iteration.  Exhausting the loop raises AuthenticationError. -/
def authGo (cfg : RetryConfig) (resp : Nat → AuthResp) :
    Nat → Nat → Option String → List Sleep → Except String String × List Sleep
  | 0, _, lastError, sleeps =>
    (.error ("Authentication failed after " ++ toString cfg.max_retries ++
      " attempts: " ++ renderLastError lastError), sleeps)
  | remaining + 1, attempt, lastError, sleeps =>
    match resp attempt with
    | .okResp token => (.ok token, sleeps)
    | .unauthorized => (.error "Invalid ICANN credentials", sleeps)
    | .rateLimited ra =>
      authGo cfg resp remaining (attempt + 1) lastError (sleeps ++ [.retryAfterSleep ra])
    | r =>
      let le := authFailMsg r lastError
      if attempt < cfg.max_retries - 1 then
        authGo cfg resp remaining (attempt + 1) le
          (sleeps ++ [.backoffSleep (calculate_backoff_delay cfg attempt)])
      else
        authGo cfg resp remaining (attempt + 1) le sleeps

/-- CZDSClient.authenticate. -/
def authenticate (cfg : RetryConfig) (resp : Nat → AuthResp) :
    Except String String × List Sleep :=
  authGo cfg resp cfg.max_retries 0 none []

/-- Outcome of one zone-file GET: a 200 carries the Content-Length header
value and the number of bytes actually streamed to disk. -/
inductive HttpResp where
  | okStream (contentLength : Nat) (byteCount : Nat)
  | notFound
  | unauthorized
  | rateLimited (retryAfter : Nat)
  | httpStatus (code : Nat)
  | timeoutErr
  | requestError (msg : String)
  | writeError (msg : String)
  deriving Repr, DecidableEq

/-- CZDSClient.generate_filename with the date already rendered as
`YYYYMMDD`. -/
def generate_filename (tld : String) (dateStr : String) : String :=
  tld ++ "_" ++ dateStr ++ ".zone.gz"

/-- The `last_error` value recorded by the download loop for a response. -/
def downloadFailMsg (r : HttpResp) (lastError : Option String) : Option String :=
  match r with
  | .httpStatus code => some ("HTTP " ++ toString code)
  | .timeoutErr => some "Request timeout"
  | .requestError msg => some msg
  | .writeError msg => some ("File write error: " ++ msg)
  | _ => lastError

/-- Loop of CZDSClient.download_zone_file.  A 200 writes the file and raises
DownloadError on a Content-Length mismatch (deleting the partial file),
otherwise returns a success result; a 404 raises DownloadError; a 401
reauthenticates (propagating an AuthenticationError) and moves on; a 429
sleeps the Retry-After value and moves on; other failures record
`last_error` and back off.  Exhausting the loop returns a failed
DownloadResult (durations are modelled as 0). -/
def downloadGo (cfg : RetryConfig) (tld outputDir dateStr : String)
    (resp : Nat → HttpResp) (reauth : Nat → Except String Unit) :
    Nat → Nat → Option String → List Sleep → Except String DownloadResult × List Sleep
  | 0, _, lastError, sleeps =>
    (.ok { tld := tld, file_path := "", file_size := 0, download_duration := 0,
           status := "failed",
           error_message := some ("Download failed after " ++ toString cfg.max_retries ++
             " attempts: " ++ renderLastError lastError) }, sleeps)
  | remaining + 1, attempt, lastError, sleeps =>
    match resp attempt with
    | .okStream contentLength byteCount =>
      if 0 < contentLength ∧ byteCount ≠ contentLength then
        (.error ("File size mismatch: expected " ++ toString contentLength ++
          ", got " ++ toString byteCount), sleeps)
      else
        (.ok { tld := tld,
               file_path := outputDir ++ "/" ++ generate_filename tld dateStr,
               file_size := byteCount, download_duration := 0,
               status := "success" }, sleeps)
    | .notFound => (.error ("Zone file not found for TLD: " ++ tld), sleeps)
    | .unauthorized =>
      match reauth attempt with
      | .error e => (.error e, sleeps)
      | .ok _ =>
        downloadGo cfg tld outputDir dateStr resp reauth remaining (attempt + 1) lastError sleeps
    | .rateLimited ra =>
      downloadGo cfg tld outputDir dateStr resp reauth remaining (attempt + 1) lastError
        (sleeps ++ [.retryAfterSleep ra])
    | r =>
      let le := downloadFailMsg r lastError
      if attempt < cfg.max_retries - 1 then
        downloadGo cfg tld outputDir dateStr resp reauth remaining (attempt + 1) le
          (sleeps ++ [.backoffSleep (calculate_backoff_delay cfg attempt)])
      else
        downloadGo cfg tld outputDir dateStr resp reauth remaining (attempt + 1) le sleeps

/-- CZDSClient.download_zone_file: the initial `_refresh_token_if_needed`
call may itself raise AuthenticationError, then the retry loop runs. -/
def download_zone_file (cfg : RetryConfig) (tld outputDir dateStr : String)
    (refresh : Except String Unit) (resp : Nat → HttpResp)
    (reauth : Nat → Except String Unit) : Except String DownloadResult × List Sleep :=
  match refresh with
  | .error e => (.error e, [])
  | .ok _ => downloadGo cfg tld outputDir dateStr resp reauth cfg.max_retries 0 none []

/-- Python `link.split("/")`: split at every slash, keeping empty segments. -/
def splitOnSlash : List Char → List (List Char)
  | [] => [[]]
  | c :: rest =>
    match splitOnSlash rest with
    | [] => [[]]
    | seg :: segs => if c = '/' then [] :: seg :: segs else (c :: seg) :: segs

/-- Python `link.split("/")[-1]`. -/
def lastSegment (l : List Char) : List Char :=
  (splitOnSlash l).getLastD []

/-- Python `s.replace(".zone", "")`: remove every non-overlapping occurrence
of `.zone`, scanning left to right. -/
def removeZoneAll : List Char → List Char
  | '.' :: 'z' :: 'o' :: 'n' :: 'e' :: rest => removeZoneAll rest
  | c :: rest => c :: removeZoneAll rest
  | [] => []

/-- The TLD the code derives from one download link:
`link.split("/")[-1].replace(".zone", "")`. -/
def tldFromLink (link : String) : String :=
  ⟨removeZoneAll (lastSegment link.data)⟩

/-- The characters of the `.zone` suffix. -/
def zoneSuffix : List Char := ['.', 'z', 'o', 'n', 'e']

/-- Modelled from the spec (for comparison with `tldFromLink`): the TLD as
the claim describes it, the last path segment with the `.zone` file suffix
stripped from its end. -/
def tldFromLinkSpec (link : String) : String :=
  let seg := lastSegment link.data
  if zoneSuffix.isSuffixOf seg then ⟨seg.take (seg.length - 5)⟩ else ⟨seg⟩

/-- Download-loop responses that consume one retry attempt and record a
`last_error` (any non-2xx status other than 404, 401 and 429, a timeout, a
network error, or a file write error). -/
def consumesAttempt : HttpResp → Prop
  | .httpStatus _ => True
  | .timeoutErr => True
  | .requestError _ => True
  | .writeError _ => True
  | _ => False

/-- Outcome of the download-links GET. -/
inductive TldsResp where
  | okLinks (links : List String)
  | unauthorized
  | httpStatus (code : Nat)
  deriving Repr, DecidableEq

/-- CZDSClient.get_approved_tlds: refresh the token (which may raise), fetch
the link list, and accumulate the derived TLD names in link order; a 401
raises AuthenticationError and any other non-200 raises DownloadError. -/
def get_approved_tlds (refresh : Except String Unit) (resp : TldsResp) :
    Except String (List String) :=
  match refresh with
  | .error e => .error e
  | .ok _ =>
    match resp with
    | .okLinks links => .ok (links.foldl (fun tlds link => tlds ++ [tldFromLink link]) [])
    | .unauthorized => .error "Token expired or invalid"
    | .httpStatus code => .error ("Failed to get TLD list: HTTP " ++ toString code)

end CZDSClient

/-! ## Sequential orchestrator (src/src/services/download_service.py)

External effects are provided by an environment: per-TLD outcomes of the
CZDS download call (which may raise), of the parse-and-insert processing
phase (which may raise), the authentication and TLD-list calls, and the one
statement of `download_single_tld` that runs before its catch-all `try`
(`logger_service.log_download_start`), whose exception would escape.  Calls
to the storage port and the CZDS client are recorded in an event trace. -/

namespace DownloadService

/-- Externally visible calls made during a run. -/
inductive Ev where
  | authEv
  | getTldsEv
  | deleteEv (tld : String)
  | downloadEv (tld : String)
  | logDbEv (tld : String) (status : String)
  deriving Repr, DecidableEq

/-- Whether the event trace contains a DownloadLog write for `tld` (a call
to the storage port's log_download for that TLD). -/
def hasLogFor (tld : String) (evs : List Ev) : Bool :=
  evs.any fun e =>
    match e with
    | .logDbEv t _ => t == tld
    | _ => false

/-- Environment of one run of the sequential orchestrator. -/
structure SeqEnv where
  auth : Except String Unit
  tlds : Except String (List String)
  logStartExn : String → Option String
  download : String → Except String DownloadResult
  process : String → Except String Nat
  now : Nat

/-- The error DownloadResult built in the `except` clause of
`download_single_tld`. -/
def errorResult (tld msg : String) : DownloadResult :=
  { tld := tld, file_path := "", file_size := 0, download_duration := 0,
    status := "failed", error_message := some msg }

/-- DownloadService.download_single_tld: log start (the only statement whose
exception escapes), delete old records (exceptions swallowed), download,
then — on success — process the file; every exception inside the `try` is
converted to a failed DownloadResult; every path logs the outcome to the
database via `_log_to_db` (which swallows its own errors). -/
def download_single_tld (env : SeqEnv) (tld : String) :
    Except String (DownloadResult × List Ev) :=
  match env.logStartExn tld with
  | some e => .error e
  | none =>
    .ok <|
      match env.download tld with
      | .error msg =>
        (errorResult tld msg, [.deleteEv tld, .downloadEv tld, .logDbEv tld "failed"])
      | .ok res =>
        if res.is_success then
          match env.process tld with
          | .error msg =>
            (errorResult tld msg, [.deleteEv tld, .downloadEv tld, .logDbEv tld "failed"])
          | .ok n =>
            let res2 := { res with records_count := n }
            (res2, [.deleteEv tld, .downloadEv tld, .logDbEv tld res2.status])
        else (res, [.deleteEv tld, .downloadEv tld, .logDbEv tld res.status])

/-- DownloadSummary dataclass (timestamps and durations modelled as 0). -/
structure DownloadSummary where
  total_tlds : Nat
  successful_tlds : Nat
  failed_tlds : Nat
  total_records : Nat
  total_duration : Nat := 0
  deriving Repr, DecidableEq

/-- The per-TLD loop of run_full_download: accumulate success/failure/record
counters, update progress after each TLD regardless of its outcome, and
propagate an unhandled exception with the state reached so far. -/
def runLoop (env : SeqEnv) (total : Nat) :
    List String → Nat → JobStatus → Nat → Nat → Nat → List Ev →
    JobStatus × List Ev × Except String (Nat × Nat × Nat)
  | [], _, js, succ, failed, recs, evs => (js, evs, .ok (succ, failed, recs))
  | tld :: rest, i, js, succ, failed, recs, evs =>
    match download_single_tld env tld with
    | .error e => (js, evs, .error e)
    | .ok (result, evsT) =>
      let succ1 := if result.is_success then succ + 1 else succ
      let failed1 := if result.is_success then failed else failed + 1
      let recs1 := if result.is_success then recs + result.records_count else recs
      let js1 := js.update_progress ((i : Int) + 1) (total : Int) tld
      runLoop env total rest (i + 1) js1 succ1 failed1 recs1 (evs ++ evsT)

/-- DownloadService.run_full_download: no-op returning None when already
running; otherwise authenticate, fetch TLDs (either may raise — the `except`
clause completes the status before re-raising), start the job, run the loop,
and complete the status on both the normal and the exceptional exit. -/
def run_full_download (env : SeqEnv) (js : JobStatus) :
    JobStatus × List Ev × Except String (Option DownloadSummary) :=
  if js.is_running then (js, [], .ok none)
  else
    match env.auth with
    | .error e => (js.complete, [.authEv], .error e)
    | .ok _ =>
      match env.tlds with
      | .error e => (js.complete, [.authEv, .getTldsEv], .error e)
      | .ok tlds =>
        if tlds.isEmpty then
          (js, [.authEv, .getTldsEv], .ok (some ⟨0, 0, 0, 0, 0⟩))
        else
          match runLoop env tlds.length tlds 0 (js.start (tlds.length : Int) env.now)
              0 0 0 [.authEv, .getTldsEv] with
          | (js2, evs, .error e) => (js2.complete, evs, .error e)
          | (js2, evs, .ok (succ, failed, recs)) =>
            (js2.complete, evs, .ok (some ⟨tlds.length, succ, failed, recs, 0⟩))

/-- Heap-allocated JobStatus objects of one DownloadService instance:
addresses are indices into `heap`, `internal` is the address of the
orchestrator's own `_job_status` object. -/
structure ServiceState where
  heap : List JobStatus
  internal : Nat

/-- DownloadService.get_current_status: construct a fresh JobStatus object
copying each field of the internal status under the lock, and return its
(new) address. -/
def get_current_status (s : ServiceState) : Nat × ServiceState :=
  let src := s.heap.getD s.internal JobStatus.init
  let copy : JobStatus :=
    { state := src.state
      current_tld := src.current_tld
      progress_percent := src.progress_percent
      total_tlds := src.total_tlds
      completed_tlds := src.completed_tlds
      started_at := src.started_at }
  (s.heap.length, { s with heap := s.heap ++ [copy] })

/-- Mutate any fields of the JobStatus object at `addr` (a caller writing to
the object returned by get_current_status). -/
def setStatusField (s : ServiceState) (addr : Nat) (f : JobStatus → JobStatus) :
    ServiceState :=
  { s with heap := s.heap.set addr (f (s.heap.getD addr JobStatus.init)) }

end DownloadService

/-! ## Parallel orchestrator (src/src/services/parallel_processor.py) -/

namespace ParallelDownloadService

/-- The result dict built by ParallelDownloadService._download_single_tld. -/
structure ResultDict where
  success : Bool
  records : Nat
  duration : Nat
  error : Option String
  deriving Repr, DecidableEq

/-- Environment of one parallel per-TLD task: the CZDS download outcome and
the chunk-processor outcome (total records and duration). -/
structure ParEnv where
  download : String → Except String DownloadResult
  process : String → Except String (Nat × Nat)

/-- ParallelDownloadService._download_single_tld: no old-record deletion
(dropped deliberately in the source), download, and on success run the
parallel chunk processor and log to the database; a failed download or any
exception returns a failure dict without logging a DownloadLog. -/
def parallel_download_single_tld (env : ParEnv) (tld : String) :
    ResultDict × List DownloadService.Ev :=
  match env.download tld with
  | .error msg =>
    ({ success := false, records := 0, duration := 0, error := some msg },
     [.downloadEv tld])
  | .ok dres =>
    if dres.is_success then
      match env.process tld with
      | .error msg =>
        ({ success := false, records := 0, duration := 0, error := some msg },
         [.downloadEv tld])
      | .ok (n, dur) =>
        ({ success := true, records := n, duration := dur, error := none },
         [.downloadEv tld, .logDbEv tld (if 0 < n then "success" else "failed")])
    else
      ({ success := false, records := 0, duration := 0, error := dres.error_message },
       [.downloadEv tld])

end ParallelDownloadService

/-! ## Helper lemmas -/

theorem string_data_append (s t : String) : (s ++ t).data = s.data ++ t.data := rfl

theorem takeWhile_append_all {p : Char → Bool} {xs ys : List Char}
    (h : ∀ x ∈ xs, p x = true) :
    (xs ++ ys).takeWhile p = xs ++ ys.takeWhile p := by
  induction xs with
  | nil => simp
  | cons x xs ih =>
    simp [List.takeWhile_cons, h x (List.mem_cons_self x xs),
      ih fun y hy => h y (List.mem_cons_of_mem x hy)]

theorem dropWhile_append_all {p : Char → Bool} {xs ys : List Char}
    (h : ∀ x ∈ xs, p x = true) :
    (xs ++ ys).dropWhile p = ys.dropWhile p := by
  induction xs with
  | nil => simp
  | cons x xs ih =>
    simp [List.dropWhile_cons, h x (List.mem_cons_self x xs),
      ih fun y hy => h y (List.mem_cons_of_mem x hy)]

theorem takeWhile_eq_nil_of_head {p : Char → Bool} {l : List Char}
    (h : ∀ c, l.head? = some c → p c = false) : l.takeWhile p = [] := by
  cases l with
  | nil => rfl
  | cons x xs => simp [List.takeWhile_cons, h x rfl]

theorem dropWhile_eq_self_of_head {p : Char → Bool} {l : List Char}
    (h : ∀ c, l.head? = some c → p c = false) : l.dropWhile p = l := by
  cases l with
  | nil => rfl
  | cons x xs => simp [List.dropWhile_cons, h x rfl]

theorem pyStrip_eq_self {l : List Char}
    (hh : ∀ c, l.head? = some c → isPySpace c = false)
    (hl : ∀ c, l.getLast? = some c → isPySpace c = false) : pyStrip l = l := by
  unfold pyStrip
  rw [dropWhile_eq_self_of_head hh,
    dropWhile_eq_self_of_head (by simpa using hl), List.reverse_reverse]

theorem isDigit_false_of_isPySpace {c : Char} (h : isPySpace c = true) :
    c.isDigit = false := by
  simp only [isPySpace, Bool.or_eq_true, beq_iff_eq] at h
  rcases h with ((((h | h) | h) | h) | h) | h <;> subst h <;> decide

theorem not_isPySpace_of_isDigit {c : Char} (h : c.isDigit = true) :
    isPySpace c = false := by
  cases hs : isPySpace c with
  | false => rfl
  | true => rw [isDigit_false_of_isPySpace hs] at h; exact absurd h (by simp)

theorem head?_dropWhile_false {p : Char → Bool} {l : List Char} :
    ∀ c, (l.dropWhile p).head? = some c → p c = false := by
  induction l with
  | nil => intro c h; simp at h
  | cons x xs ih =>
    intro c h
    rw [List.dropWhile_cons] at h
    by_cases hx : p x = true
    · exact ih c (by simpa [hx] using h)
    · simp only [Bool.not_eq_true] at hx
      simp only [hx, Bool.false_eq_true, if_false, List.head?_cons,
        Option.some.injEq] at h
      rwa [h] at hx

theorem rstripDots_no_trailing_dot (l : List Char) :
    ∀ c, (rstripDots l).getLast? = some c → c ≠ '.' := by
  intro c h hc
  unfold rstripDots at h
  rw [List.getLast?_reverse] at h
  have := head?_dropWhile_false (p := fun c => c == '.') (l := l.reverse) c h
  subst hc
  simp at this

theorem splitRun (p : Char → Bool) (xs ys : List Char)
    (hall : ∀ x ∈ xs, p x = true)
    (hhead : ∀ c, ys.head? = some c → p c = false) :
    (xs ++ ys).takeWhile p = xs ∧ (xs ++ ys).dropWhile p = ys := by
  constructor
  · rw [takeWhile_append_all hall, takeWhile_eq_nil_of_head hhead, List.append_nil]
  · rw [dropWhile_append_all hall, dropWhile_eq_self_of_head hhead]

namespace ZoneParser

theorem matchZoneLine_structured (D T Y R : List Char)
    (hD : D ≠ []) (hDs : ∀ c ∈ D, isPySpace c = false)
    (hT : T ≠ []) (hTd : ∀ c ∈ T, c.isDigit = true)
    (hY : Y ≠ []) (hYs : ∀ c ∈ Y, isPySpace c = false)
    (hR : R ≠ []) (hRh : ∀ c, R.head? = some c → isPySpace c = false) :
    matchZoneLine (D ++ '.' :: ' ' :: (T ++ ' ' :: 'I' :: 'N' :: ' ' :: (Y ++ ' ' :: R)))
      = some ⟨D ++ ['.'], T, Y, R⟩ := by
  have hshape : D ++ '.' :: ' ' :: (T ++ ' ' :: 'I' :: 'N' :: ' ' :: (Y ++ ' ' :: R))
      = (D ++ ['.']) ++ (' ' :: (T ++ ' ' :: 'I' :: 'N' :: ' ' :: (Y ++ ' ' :: R))) := by
    simp
  have s1 := splitRun (fun c => !isPySpace c)
    (D ++ ['.']) (' ' :: (T ++ ' ' :: 'I' :: 'N' :: ' ' :: (Y ++ ' ' :: R)))
    (by
      intro x hx
      rcases List.mem_append.mp hx with hx | hx
      · simp [hDs x hx]
      · simp at hx; subst hx; decide)
    (by intro c h; simp at h; subst h; decide)
  have s2 := splitRun isPySpace
    [' '] (T ++ ' ' :: 'I' :: 'N' :: ' ' :: (Y ++ ' ' :: R))
    (by intro x hx; simp at hx; subst hx; decide)
    (by
      intro c h
      rw [List.head?_append_of_ne_nil _ hT] at h
      exact not_isPySpace_of_isDigit (hTd c (List.mem_of_mem_head? h)))
  have s3 := splitRun Char.isDigit
    T (' ' :: 'I' :: 'N' :: ' ' :: (Y ++ ' ' :: R))
    hTd
    (by intro c h; simp at h; subst h; decide)
  have s4 := splitRun isPySpace
    [' '] ('I' :: 'N' :: ' ' :: (Y ++ ' ' :: R))
    (by intro x hx; simp at hx; subst hx; decide)
    (by intro c h; simp at h; subst h; decide)
  have s5 := splitRun isPySpace
    [' '] (Y ++ ' ' :: R)
    (by intro x hx; simp at hx; subst hx; decide)
    (by
      intro c h
      rw [List.head?_append_of_ne_nil _ hY] at h
      exact hYs c (List.mem_of_mem_head? h))
  have s6 := splitRun (fun c => !isPySpace c)
    Y (' ' :: R)
    (by intro x hx; simp [hYs x hx])
    (by intro c h; simp at h; subst h; decide)
  have s7 := splitRun isPySpace
    [' '] R
    (by intro x hx; simp at hx; subst hx; decide)
    hRh
  simp only [List.singleton_append] at s2 s4 s5 s7
  unfold matchZoneLine
  rw [hshape]
  simp only [s1.1, s1.2, s2.1, s2.2, s3.1, s3.2, s4.1, s4.2, s5.1, s5.2, s6.1, s6.2,
    s7.1, s7.2]
  simp [hD, hT, hY, hR]

theorem rstripDots_append_dot (l : List Char) : rstripDots (l ++ ['.']) = rstripDots l := by
  unfold rstripDots
  simp [List.dropWhile_cons]

end ZoneParser

/-- C5: for an input line of the form `<domain>. <ttl> IN <TYPE> <rdata>`
(domain, type nonempty and whitespace-free, domain not beginning with the
comment or directive markers that the skip rule gives precedence to, ttl a
nonempty digit string, uppercased type supported, rdata nonempty with
non-whitespace first and last characters) the parser emits exactly one
ZoneRecord with the domain stripped of trailing dots, the integer ttl, the
uppercased type and the rdata stripped of trailing dots; and every line
that is blank after stripping, starts with `;` or `$`, fails to match the
pattern, or names an unsupported type yields no record (and the parser is a
total function, so no error is raised). -/
theorem c5_parse_line_semantics :
    (∀ (tld : String) (dd : Nat) (domain ttl ty rdata : String),
      domain.data ≠ [] →
      (∀ c ∈ domain.data, isPySpace c = false) →
      domain.data.head? ≠ some ';' →
      domain.data.head? ≠ some '$' →
      ttl.data ≠ [] →
      (∀ c ∈ ttl.data, c.isDigit = true) →
      ty.data ≠ [] →
      (∀ c ∈ ty.data, isPySpace c = false) →
      pyUpper ty ∈ ZoneParser.SUPPORTED_RECORD_TYPES →
      rdata.data ≠ [] →
      (∀ c, rdata.data.head? = some c → isPySpace c = false) →
      (∀ c, rdata.data.getLast? = some c → isPySpace c = false) →
      ZoneParser.parse_line tld dd (domain ++ ". " ++ ttl ++ " IN " ++ ty ++ " " ++ rdata) =
        some ⟨⟨rstripDots domain.data⟩, tld, pyUpper ty, ⟨rstripDots rdata.data⟩,
          natOfDigits ttl.data, dd⟩) ∧
    (∀ (tld : String) (dd : Nat) (line : String),
      (pyStrip line.data = [] ∨ (pyStrip line.data).head? = some ';' ∨
        (pyStrip line.data).head? = some '$' ∨
        ZoneParser.matchZoneLine (pyStrip line.data) = none ∨
        (∃ g, ZoneParser.matchZoneLine (pyStrip line.data) = some g ∧
          pyUpper ⟨g.g3⟩ ∉ ZoneParser.SUPPORTED_RECORD_TYPES)) →
      ZoneParser.parse_line tld dd line = none) := by
  constructor
  · intro tld dd domain ttl ty rdata hD hDs hDsc hDdc hT hTd hY hYs hsup hR hRh hRl
    have hd : (domain ++ ". " ++ ttl ++ " IN " ++ ty ++ " " ++ rdata).data
        = domain.data ++ '.' :: ' ' ::
            (ttl.data ++ ' ' :: 'I' :: 'N' :: ' ' :: (ty.data ++ ' ' :: rdata.data)) := by
      simp only [string_data_append]
      simp
    have hd2 : domain.data ++ '.' :: ' ' ::
          (ttl.data ++ ' ' :: 'I' :: 'N' :: ' ' :: (ty.data ++ ' ' :: rdata.data))
        = (domain.data ++ '.' :: ' ' ::
            (ttl.data ++ ' ' :: 'I' :: 'N' :: ' ' :: (ty.data ++ [' ']))) ++ rdata.data := by
      simp
    have hstrip : pyStrip ((domain ++ ". " ++ ttl ++ " IN " ++ ty ++ " " ++ rdata).data)
        = domain.data ++ '.' :: ' ' ::
            (ttl.data ++ ' ' :: 'I' :: 'N' :: ' ' :: (ty.data ++ ' ' :: rdata.data)) := by
      rw [hd]
      refine pyStrip_eq_self ?_ ?_
      · intro c h
        rw [List.head?_append_of_ne_nil _ hD] at h
        exact hDs c (List.mem_of_mem_head? h)
      · intro c h
        rw [hd2, List.getLast?_append_of_ne_nil _ hR] at h
        exact hRl c h
    have hmatch := ZoneParser.matchZoneLine_structured domain.data ttl.data ty.data rdata.data
      hD hDs hT hTd hY hYs hR hRh
    have hne : domain.data ++ '.' :: ' ' ::
        (ttl.data ++ ' ' :: 'I' :: 'N' :: ' ' :: (ty.data ++ ' ' :: rdata.data)) ≠ [] := by
      simp
    have hh1 : (domain.data ++ '.' :: ' ' ::
        (ttl.data ++ ' ' :: 'I' :: 'N' :: ' ' :: (ty.data ++ ' ' :: rdata.data))).head?
        = domain.data.head? := List.head?_append_of_ne_nil _ hD
    have hty : (⟨ty.data⟩ : String) = ty := rfl
    unfold ZoneParser.parse_line
    rw [hstrip]
    simp only [hmatch]
    rw [if_neg hne, hh1, if_neg (by simp [hDsc, hDdc])]
    simp [hty, hsup, ZoneParser.rstripDots_append_dot, pyStrip_eq_self hRh hRl]
  · intro tld dd line h
    unfold ZoneParser.parse_line
    by_cases h1 : pyStrip line.data = []
    · simp [h1]
    · rw [if_neg h1]
      by_cases h2 : (pyStrip line.data).head? = some ';'
      · rw [if_pos (by simp [h2])]
      · by_cases h3 : (pyStrip line.data).head? = some '$'
        · rw [if_pos (by simp [h3])]
        · rw [if_neg (by simp [h2, h3])]
          rcases h with h | h | h | h | ⟨g, hg, hns⟩
          · exact absurd h h1
          · exact absurd h h2
          · exact absurd h h3
          · rw [h]
          · rw [hg]
            simp [hns]

/-- Witness for C5: a concrete NS line parses to the expected record (the
lowercase type is uppercased, trailing dots are stripped), and a concrete
comment line yields no record. -/
theorem c5_witness :
    ZoneParser.parse_line "com" 7
        ("example.com" ++ ". " ++ "3600" ++ " IN " ++ "ns" ++ " " ++ "ns1.example.com.") =
      some ⟨"example.com", "com", "NS", "ns1.example.com", 3600, 7⟩ ∧
    ZoneParser.parse_line "com" 7 "; a comment" = none := by
  constructor
  · have h := c5_parse_line_semantics.1 "com" 7 "example.com" "3600" "ns" "ns1.example.com."
      (by decide) (by decide) (by decide) (by decide) (by decide) (by decide)
      (by decide) (by decide) (by decide) (by decide)
      (by
        intro c hc
        rw [show ("ns1.example.com." : String).data.head? = some 'n' from rfl] at hc
        injection hc with hc
        subst hc
        decide)
      (by
        intro c hc
        rw [show ("ns1.example.com." : String).data.getLast? = some '.' from rfl] at hc
        injection hc with hc
        subst hc
        decide)
    rw [h]
    decide
  · exact c5_parse_line_semantics.2 "com" 7 "; a comment" (Or.inr (Or.inl (by decide)))

/-- Core induction for the chunked parser: running the chunk loop from a
partial buffer `chunk` (strictly below the chunk size) and last emitted
chunk number `n` yields chunks whose concatenation is the buffer followed by
the single-pass records, all emitted chunks except possibly the last have
exactly `chunk_size` records, and the chunk numbers are consecutive from
`n + 1`. -/
theorem chunkedGo_spec (tld : String) (dd csize : Nat) (hcs : 0 < csize) :
    ∀ (lines : List String) (chunk : List ZoneRecord) (n : Nat), chunk.length < csize →
      ((ZoneParser.chunkedGo tld dd csize lines chunk n).map Prod.fst).flatten
          = chunk ++ lines.filterMap (ZoneParser.parse_line tld dd)
      ∧ (∀ c ∈ (ZoneParser.chunkedGo tld dd csize lines chunk n).dropLast,
          c.1.length = csize)
      ∧ (ZoneParser.chunkedGo tld dd csize lines chunk n).map Prod.snd
          = List.range' (n + 1) (ZoneParser.chunkedGo tld dd csize lines chunk n).length := by
  intro lines
  induction lines with
  | nil =>
    intro chunk n hlt
    by_cases hc : chunk = [] <;>
      simp [ZoneParser.chunkedGo, hc, List.range'_succ]
  | cons line rest ih =>
    intro chunk n hlt
    unfold ZoneParser.chunkedGo
    cases hpl : ZoneParser.parse_line tld dd line with
    | none => simpa [hpl] using ih chunk n hlt
    | some r =>
      by_cases hfull : csize ≤ (chunk ++ [r]).length
      · have hlen : (chunk ++ [r]).length = csize := by
          simp only [List.length_append, List.length_singleton] at hfull ⊢
          omega
        obtain ⟨ihj, ihd, ihn⟩ := ih [] (n + 1) hcs
        simp only [hpl, hfull, if_pos]
        refine ⟨?_, ?_, ?_⟩
        · simp [ihj, List.filterMap_cons, hpl]
        · intro c hc
          by_cases hg : ZoneParser.chunkedGo tld dd csize rest [] (n + 1) = []
          · rw [hg] at hc
            simp at hc
          · rw [List.dropLast_cons_of_ne_nil hg] at hc
            rcases List.mem_cons.mp hc with hc | hc
            · rw [hc]
              exact hlen
            · exact ihd c hc
        · simp only [List.map_cons, List.length_cons, List.range'_succ, ihn]
      · have hlt2 : (chunk ++ [r]).length < csize := Nat.lt_of_not_le hfull
        obtain ⟨ihj, ihd, ihn⟩ := ih (chunk ++ [r]) n hlt2
        simp only [hpl, hfull, if_neg, if_false]
        refine ⟨?_, ihd, ihn⟩
        simp [ihj, List.filterMap_cons, hpl]

/-- C6: for every zone file (as its list of decoded lines) and every
positive chunk size, the concatenation in order of the chunks yielded by
parse_zone_file_chunked equals the record sequence yielded by
parse_zone_file; every yielded chunk except possibly the last holds exactly
`chunk_size` records; and the chunk numbers are consecutive starting at 1. -/
theorem c6_chunked_equals_single_pass (tld : String) (dd csize : Nat)
    (lines : List String) (hcs : 0 < csize) :
    ((ZoneParser.parse_zone_file_chunked tld dd csize lines).map Prod.fst).flatten
        = ZoneParser.parse_zone_file tld dd lines
    ∧ (∀ c ∈ (ZoneParser.parse_zone_file_chunked tld dd csize lines).dropLast,
        c.1.length = csize)
    ∧ (ZoneParser.parse_zone_file_chunked tld dd csize lines).map Prod.snd
        = List.range' 1 (ZoneParser.parse_zone_file_chunked tld dd csize lines).length := by
  obtain ⟨hj, hd, hn⟩ := chunkedGo_spec tld dd csize hcs lines [] 0 hcs
  exact ⟨by simpa [ZoneParser.parse_zone_file] using hj, hd, hn⟩

/-- Witness for C6: a concrete five-line file with chunk size 2 yields
chunks [2, 2, 1] numbered 1, 2, 3 whose concatenation is the single-pass
parse. -/
theorem c6_witness :
    (((ZoneParser.parse_zone_file_chunked "com" 0 2
        ["a. 1 IN NS x", "; c", "b. 2 IN NS x", "c. 3 IN NS x", "$TTL 100",
         "d. 4 IN NS x", "e. 5 IN NS x"]).map Prod.fst).flatten
      = ZoneParser.parse_zone_file "com" 0
        ["a. 1 IN NS x", "; c", "b. 2 IN NS x", "c. 3 IN NS x", "$TTL 100",
         "d. 4 IN NS x", "e. 5 IN NS x"])
    ∧ (∀ c ∈ (ZoneParser.parse_zone_file_chunked "com" 0 2
        ["a. 1 IN NS x", "; c", "b. 2 IN NS x", "c. 3 IN NS x", "$TTL 100",
         "d. 4 IN NS x", "e. 5 IN NS x"]).dropLast, c.1.length = 2) := by
  have h := c6_chunked_equals_single_pass "com" 0 2
    ["a. 1 IN NS x", "; c", "b. 2 IN NS x", "c. 3 IN NS x", "$TTL 100",
     "d. 4 IN NS x", "e. 5 IN NS x"] (by decide)
  exact ⟨h.1, h.2.1⟩

/-- C9 counterexample: at completed = 29 and total = 100 the code computes
`int((29 / 100) * 100) = 28` (the double nearest 0.29 times 100.0 is just
below 29), while the claimed formula `floor(c·100/T)` gives 29 — so the
claimed progress invariant fails on the code. -/
theorem c9_counterexample :
    (JobStatus.init.update_progress 29 100 "com").progress_percent = 28 ∧
    ((29 * 100) / 100 : Int) = 29 ∧ (28 : Int) ≠ 29 := by
  refine ⟨by decide, by decide, by decide⟩

/-- Invariant preservation for one JobStatus operation. -/
theorem statusInv_step (js : JobStatus) (op : JobOp) (hwf : OpWF op)
    (hinv : StatusInv js) : StatusInv (applyOp js op) := by
  cases op with
  | startOp total now =>
    intro _
    exact ⟨rfl, hwf⟩
  | updateProgressOp completed total tld =>
    intro hrun
    exact ⟨(hinv hrun).1, hwf⟩
  | completeOp =>
    intro hrun
    rw [show (applyOp js .completeOp).state = "idle" from rfl] at hrun
    exact absurd hrun (by decide)

/-- C9 amended: after `update_progress(c, T, tld)` the progress percentage
is exactly the IEEE-754 double computation `int((c / T) * 100)` (`pyProgress`),
which is 0 when T ≤ 0 — this agrees with `floor(c·100/T)` for most but not
all inputs (it is 28 rather than 29 at c = 29, T = 100); a running status
always has its start time set and a nonnegative TLD total (preserved by
every well-formed operation sequence); and `complete()` leaves state idle
with progress 100. -/
theorem c9_amended_progress_invariant :
    (∀ (ops : List JobOp) (js : JobStatus), (∀ op ∈ ops, OpWF op) → StatusInv js →
      StatusInv (ops.foldl applyOp js))
    ∧ (∀ (js : JobStatus) (c T : Int) (tld : String),
        (js.update_progress c T tld).progress_percent = pyProgress c T
        ∧ (T ≤ 0 → (js.update_progress c T tld).progress_percent = 0))
    ∧ (∀ js : JobStatus, (applyOp js .completeOp).state = "idle"
        ∧ (applyOp js .completeOp).progress_percent = 100) := by
  refine ⟨?_, ?_, ?_⟩
  · intro ops
    induction ops with
    | nil => intro js _ hinv; exact hinv
    | cons op rest ih =>
      intro js hwf hinv
      exact ih (applyOp js op) (fun o ho => hwf o (List.mem_cons_of_mem op ho))
        (statusInv_step js op (hwf op (List.mem_cons_self op rest)) hinv)
  · intro js c T tld
    refine ⟨rfl, ?_⟩
    intro hT
    show pyProgress c T = 0
    unfold pyProgress
    rw [if_neg (by omega)]
  · intro js
    exact ⟨rfl, rfl⟩

/-- Witness for C9: a concrete well-formed operation sequence (start a run
of 2 TLDs, complete one of them, finish) keeps the invariant from the
freshly initialized status. -/
theorem c9_witness :
    StatusInv ([JobOp.startOp 2 5, JobOp.updateProgressOp 1 2 "com",
      JobOp.completeOp].foldl applyOp JobStatus.init) := by
  refine c9_amended_progress_invariant.1 _ JobStatus.init ?_ ?_
  · intro op hop
    simp only [List.mem_cons, List.mem_singleton] at hop
    rcases hop with h | h | h | h <;> first
      | (subst h; simp [OpWF])
      | simp at h
  · intro h
    exact absurd h (by decide)

/-- C10: get_current_status returns a fresh snapshot object: its fields
equal the internal status field-for-field at call time, its address differs
from the internal object's address, and any mutation applied to the
returned object leaves the internal JobStatus unchanged. -/
theorem c10_get_current_status_snapshot (s : DownloadService.ServiceState)
    (hlt : s.internal < s.heap.length) :
    (DownloadService.get_current_status s).2.heap.getD
        (DownloadService.get_current_status s).1 JobStatus.init
      = s.heap.getD s.internal JobStatus.init
    ∧ (DownloadService.get_current_status s).1 ≠ (DownloadService.get_current_status s).2.internal
    ∧ (DownloadService.get_current_status s).2.internal = s.internal
    ∧ ∀ f : JobStatus → JobStatus,
        (DownloadService.setStatusField (DownloadService.get_current_status s).2
            (DownloadService.get_current_status s).1 f).heap.getD s.internal JobStatus.init
          = s.heap.getD s.internal JobStatus.init := by
  refine ⟨?_, ?_, rfl, ?_⟩
  · show (s.heap ++ [_]).getD s.heap.length JobStatus.init = _
    simp [List.getD]
  · show s.heap.length ≠ s.internal
    omega
  · intro f
    have hne : s.heap.length ≠ s.internal := by omega
    show ((s.heap ++ [_]).set s.heap.length _).getD s.internal JobStatus.init
      = s.heap.getD s.internal JobStatus.init
    simp only [List.getD_eq_getElem?_getD]
    rw [List.getElem?_set_ne hne, List.getElem?_append_left hlt]

/-- Witness for C10: a concrete two-object heap whose internal status is
running; the snapshot equals it, lives at a fresh address, and overwriting
the snapshot's state field leaves the internal object untouched. -/
theorem c10_witness :
    (DownloadService.get_current_status
        ⟨[{ JobStatus.init with state := "running", started_at := some 3 }], 0⟩).2.heap.getD
        (DownloadService.get_current_status
          ⟨[{ JobStatus.init with state := "running", started_at := some 3 }], 0⟩).1
        JobStatus.init
      = ({ JobStatus.init with state := "running", started_at := some 3 } : JobStatus)
    ∧ (DownloadService.setStatusField
        (DownloadService.get_current_status
          ⟨[{ JobStatus.init with state := "running", started_at := some 3 }], 0⟩).2
        (DownloadService.get_current_status
          ⟨[{ JobStatus.init with state := "running", started_at := some 3 }], 0⟩).1
        (fun js => { js with state := "idle" })).heap.getD 0 JobStatus.init
      = ({ JobStatus.init with state := "running", started_at := some 3 } : JobStatus) := by
  have h := c10_get_current_status_snapshot
    ⟨[{ JobStatus.init with state := "running", started_at := some 3 }], 0⟩ (by decide)
  exact ⟨h.1, h.2.2.2 (fun js => { js with state := "idle" })⟩

namespace CZDSClient

/-- When every remaining attempt of the authenticate loop answers 429, each
iteration sleeps exactly its Retry-After value, records no error and no
backoff sleep, and the loop runs out of attempts. -/
theorem authGo_all_rate_limited (cfg : RetryConfig) (resp : Nat → AuthResp) (ra : Nat → Nat)
    (h : ∀ k < cfg.max_retries, resp k = .rateLimited (ra k)) :
    ∀ (remaining attempt : Nat) (lastError : Option String) (sleeps : List Sleep),
      remaining + attempt = cfg.max_retries →
      authGo cfg resp remaining attempt lastError sleeps
        = (.error ("Authentication failed after " ++ toString cfg.max_retries ++
            " attempts: " ++ renderLastError lastError),
           sleeps ++ (List.range' attempt remaining).map fun k => .retryAfterSleep (ra k)) := by
  intro remaining
  induction remaining with
  | zero =>
    intro attempt le sleeps _
    simp [authGo]
  | succ r ih =>
    intro attempt le sleeps hsum
    have hk : attempt < cfg.max_retries := by omega
    unfold authGo
    simp only [h attempt hk]
    rw [ih (attempt + 1) le (sleeps ++ [Sleep.retryAfterSleep (ra attempt)]) (by omega)]
    simp [List.range'_succ]

/-- Download analogue of `authGo_all_rate_limited`: all-429 responses sleep
exactly their Retry-After values and exhaust the loop, which then returns
the failed DownloadResult. -/
theorem downloadGo_all_rate_limited (cfg : RetryConfig) (tld outputDir dateStr : String)
    (resp : Nat → HttpResp) (reauth : Nat → Except String Unit) (ra : Nat → Nat)
    (h : ∀ k < cfg.max_retries, resp k = .rateLimited (ra k)) :
    ∀ (remaining attempt : Nat) (lastError : Option String) (sleeps : List Sleep),
      remaining + attempt = cfg.max_retries →
      downloadGo cfg tld outputDir dateStr resp reauth remaining attempt lastError sleeps
        = (.ok { tld := tld, file_path := "", file_size := 0, download_duration := 0,
                 status := "failed",
                 error_message := some ("Download failed after " ++ toString cfg.max_retries ++
                   " attempts: " ++ renderLastError lastError) },
           sleeps ++ (List.range' attempt remaining).map fun k => .retryAfterSleep (ra k)) := by
  intro remaining
  induction remaining with
  | zero =>
    intro attempt le sleeps _
    simp [downloadGo]
  | succ r ih =>
    intro attempt le sleeps hsum
    have hk : attempt < cfg.max_retries := by omega
    unfold downloadGo
    simp only [h attempt hk]
    rw [ih (attempt + 1) le (sleeps ++ [Sleep.retryAfterSleep (ra attempt)]) (by omega)]
    simp [List.range'_succ]

end CZDSClient

/-- C7 counterexample: with the default retry configuration (max_retries =
3), a sequence of three 429 responses by itself exhausts the attempt budget
of `authenticate` — the call raises AuthenticationError after sleeping the
three server-supplied Retry-After values — refuting the claim that 429s do
not count against the `maxRetries` attempt budget. -/
theorem c7_counterexample :
    CZDSClient.authenticate {} (fun _ => .rateLimited 7)
      = (.error "Authentication failed after 3 attempts: None",
         [.retryAfterSleep 7, .retryAfterSleep 7, .retryAfterSleep 7]) := rfl

/-- C7 amended: in the shared retry protocol a 429 response sleeps exactly
the server-supplied Retry-After value and skips the exponential backoff
sleep for that iteration, but it does consume one iteration of the
`range(max_retries)` loop: `max_retries` consecutive 429 responses exhaust
the budget, making authenticate raise AuthenticationError and the download
return a failed DownloadResult, in both cases with no backoff sleeps and
exactly the Retry-After sleeps. -/
theorem c7_amended_rate_limit (cfg : CZDSClient.RetryConfig)
    (resp1 : Nat → CZDSClient.AuthResp) (resp2 : Nat → CZDSClient.HttpResp)
    (ra : Nat → Nat) (tld outputDir dateStr : String)
    (reauth : Nat → Except String Unit)
    (h1 : ∀ k < cfg.max_retries, resp1 k = .rateLimited (ra k))
    (h2 : ∀ k < cfg.max_retries, resp2 k = .rateLimited (ra k)) :
    CZDSClient.authenticate cfg resp1
      = (.error ("Authentication failed after " ++ toString cfg.max_retries ++
          " attempts: None"),
         (List.range cfg.max_retries).map fun k => .retryAfterSleep (ra k))
    ∧ CZDSClient.download_zone_file cfg tld outputDir dateStr (.ok ()) resp2 reauth
      = (.ok { tld := tld, file_path := "", file_size := 0, download_duration := 0,
               status := "failed",
               error_message := some ("Download failed after " ++ toString cfg.max_retries ++
                 " attempts: None") },
         (List.range cfg.max_retries).map fun k => .retryAfterSleep (ra k)) := by
  constructor
  · rw [CZDSClient.authenticate,
      CZDSClient.authGo_all_rate_limited cfg resp1 ra h1 cfg.max_retries 0 none [] (by omega)]
    simp [CZDSClient.renderLastError, List.range_eq_range', String.append_assoc]
  · rw [CZDSClient.download_zone_file]
    rw [CZDSClient.downloadGo_all_rate_limited cfg tld outputDir dateStr resp2 reauth ra h2
      cfg.max_retries 0 none [] (by omega)]
    simp [CZDSClient.renderLastError, List.range_eq_range', String.append_assoc]

/-- Witness for C7 amended: default configuration, Retry-After values 5, 6,
7 — three rate-limited attempts exhaust the budget with exactly those
sleeps. -/
theorem c7_witness :
    CZDSClient.authenticate {} (fun k => .rateLimited (k + 5))
      = (.error "Authentication failed after 3 attempts: None",
         [.retryAfterSleep 5, .retryAfterSleep 6, .retryAfterSleep 7])
    ∧ CZDSClient.download_zone_file {} "com" "/app/temp" "20251012" (.ok ())
        (fun k => .rateLimited (k + 5)) (fun _ => .ok ())
      = (.ok { tld := "com", file_path := "", file_size := 0, download_duration := 0,
               status := "failed",
               error_message := some "Download failed after 3 attempts: None" },
         [.retryAfterSleep 5, .retryAfterSleep 6, .retryAfterSleep 7]) := by
  have h := c7_amended_rate_limit {} (fun k => .rateLimited (k + 5))
    (fun k => .rateLimited (k + 5)) (fun k => k + 5) "com" "/app/temp" "20251012"
    (fun _ => .ok ()) (fun k _ => rfl) (fun k _ => rfl)
  exact ⟨h.1.trans (by rfl), h.2.trans (by rfl)⟩

namespace CZDSClient

/-- When every remaining attempt produces an attempt-consuming failure (a
generic non-2xx status, timeout, network error or write error), the
download loop never raises: it exhausts its attempts and returns a failed
DownloadResult whose message starts with `Download failed after N
attempts:`. -/
theorem downloadGo_exhaust (cfg : RetryConfig) (tld outputDir dateStr : String)
    (resp : Nat → HttpResp) (reauth : Nat → Except String Unit)
    (h : ∀ k < cfg.max_retries, consumesAttempt (resp k)) :
    ∀ (remaining attempt : Nat) (lastError : Option String) (sleeps : List Sleep),
      remaining + attempt = cfg.max_retries →
      ∃ r : DownloadResult,
        (downloadGo cfg tld outputDir dateStr resp reauth remaining attempt lastError sleeps).1
          = .ok r
        ∧ r.tld = tld ∧ r.status = "failed"
        ∧ ∃ msg, r.error_message = some ("Download failed after " ++
            toString cfg.max_retries ++ " attempts: " ++ msg) := by
  intro remaining
  induction remaining with
  | zero =>
    intro attempt lastError sleeps _
    refine ⟨_, rfl, rfl, rfl, renderLastError lastError, rfl⟩
  | succ r ih =>
    intro attempt lastError sleeps hsum
    have hk : attempt < cfg.max_retries := by omega
    have hc := h attempt hk
    unfold downloadGo
    cases hres : resp attempt with
    | okStream contentLength byteCount => rw [hres] at hc; exact absurd hc (by simp [consumesAttempt])
    | notFound => rw [hres] at hc; exact absurd hc (by simp [consumesAttempt])
    | unauthorized => rw [hres] at hc; exact absurd hc (by simp [consumesAttempt])
    | rateLimited ra => rw [hres] at hc; exact absurd hc (by simp [consumesAttempt])
    | httpStatus code =>
      simp only
      by_cases hlt : attempt < cfg.max_retries - 1
      · rw [if_pos hlt]; exact ih (attempt + 1) _ _ (by omega)
      · rw [if_neg hlt]; exact ih (attempt + 1) _ _ (by omega)
    | timeoutErr =>
      simp only
      by_cases hlt : attempt < cfg.max_retries - 1
      · rw [if_pos hlt]; exact ih (attempt + 1) _ _ (by omega)
      · rw [if_neg hlt]; exact ih (attempt + 1) _ _ (by omega)
    | requestError msg =>
      simp only
      by_cases hlt : attempt < cfg.max_retries - 1
      · rw [if_pos hlt]; exact ih (attempt + 1) _ _ (by omega)
      · rw [if_neg hlt]; exact ih (attempt + 1) _ _ (by omega)
    | writeError msg =>
      simp only
      by_cases hlt : attempt < cfg.max_retries - 1
      · rw [if_pos hlt]; exact ih (attempt + 1) _ _ (by omega)
      · rw [if_neg hlt]; exact ih (attempt + 1) _ _ (by omega)

end CZDSClient

/-- C3 counterexample: a 404 on the very first attempt makes
download_zone_file ("xyz") raise a DownloadError (the raise inside the
`try` is not caught by its `except` clauses, which only catch requests
exceptions and IOError), instead of returning a failed DownloadResult —
refuting "downloadZoneFile never raises". -/
theorem c3_counterexample :
    (CZDSClient.download_zone_file {} "xyz" "/app/temp" "20251012" (.ok ())
        (fun _ => .notFound) (fun _ => .ok ())).1
      = .error "Zone file not found for TLD: xyz" := rfl

/-- C3 amended: download_zone_file raises DownloadError on an HTTP 404 (with
a message naming the TLD) and on a byte-count mismatch, rather than
returning a result; it does return a failed DownloadResult with a
descriptive message when all attempts are consumed by generic failures; and
the orchestrator's download_single_tld catches any raised exception and
converts it into a failed DownloadResult carrying the exception message
(hence referencing the TLD for a 404), logging the outcome and letting the
run continue with the next TLD. -/
theorem c3_amended_download_errors :
    (∀ (cfg : CZDSClient.RetryConfig) (tld outputDir dateStr : String)
        (resp : Nat → CZDSClient.HttpResp) (reauth : Nat → Except String Unit),
      (∀ k < cfg.max_retries, CZDSClient.consumesAttempt (resp k)) →
      ∃ r : DownloadResult,
        (CZDSClient.download_zone_file cfg tld outputDir dateStr (.ok ()) resp reauth).1
          = .ok r
        ∧ r.tld = tld ∧ r.status = "failed"
        ∧ ∃ msg, r.error_message = some ("Download failed after " ++
            toString cfg.max_retries ++ " attempts: " ++ msg))
    ∧ (∀ (cfg : CZDSClient.RetryConfig) (tld outputDir dateStr : String)
        (resp : Nat → CZDSClient.HttpResp) (reauth : Nat → Except String Unit),
      0 < cfg.max_retries → resp 0 = .notFound →
      (CZDSClient.download_zone_file cfg tld outputDir dateStr (.ok ()) resp reauth).1
        = .error ("Zone file not found for TLD: " ++ tld))
    ∧ (∀ (cfg : CZDSClient.RetryConfig) (tld outputDir dateStr : String)
        (resp : Nat → CZDSClient.HttpResp) (reauth : Nat → Except String Unit)
        (contentLength byteCount : Nat),
      0 < cfg.max_retries → resp 0 = .okStream contentLength byteCount →
      0 < contentLength → byteCount ≠ contentLength →
      (CZDSClient.download_zone_file cfg tld outputDir dateStr (.ok ()) resp reauth).1
        = .error ("File size mismatch: expected " ++ toString contentLength ++
            ", got " ++ toString byteCount))
    ∧ (∀ (env : DownloadService.SeqEnv) (tld msg : String),
        env.logStartExn tld = none → env.download tld = .error msg →
        DownloadService.download_single_tld env tld
          = .ok (DownloadService.errorResult tld msg,
              [.deleteEv tld, .downloadEv tld, .logDbEv tld "failed"])
        ∧ (DownloadService.errorResult tld msg).status = "failed"
        ∧ (DownloadService.errorResult tld msg).error_message = some msg) := by
  refine ⟨?_, ?_, ?_, ?_⟩
  · intro cfg tld outputDir dateStr resp reauth h
    exact CZDSClient.downloadGo_exhaust cfg tld outputDir dateStr resp reauth h
      cfg.max_retries 0 none [] (by omega)
  · intro cfg tld outputDir dateStr resp reauth hmax h404
    obtain ⟨m, hm⟩ := Nat.exists_eq_succ_of_ne_zero (by omega : cfg.max_retries ≠ 0)
    rw [CZDSClient.download_zone_file, hm]
    unfold CZDSClient.downloadGo
    rw [h404]
  · intro cfg tld outputDir dateStr resp reauth contentLength byteCount hmax h200 hcl hneq
    obtain ⟨m, hm⟩ := Nat.exists_eq_succ_of_ne_zero (by omega : cfg.max_retries ≠ 0)
    rw [CZDSClient.download_zone_file, hm]
    unfold CZDSClient.downloadGo
    rw [h200]
    simp only [if_pos (And.intro hcl hneq)]
  · intro env tld msg hlog hdl
    refine ⟨?_, rfl, rfl⟩
    unfold DownloadService.download_single_tld
    rw [hlog, hdl]

/-- Witness for C3 amended: three straight timeouts exhaust the default
budget and yield a failed result; a 404 for TLD `xyz` raises with a message
referencing `xyz`; a 200 whose streamed byte count (90) differs from its
Content-Length (100) raises the size-mismatch DownloadError; and an
orchestrator environment whose download call raises that very DownloadError
still gets a failed DownloadResult for `xyz`, with the outcome logged. -/
theorem c3_witness :
    (∃ r : DownloadResult,
      (CZDSClient.download_zone_file {} "com" "/app/temp" "20251012" (.ok ())
          (fun _ => .timeoutErr) (fun _ => .ok ())).1 = .ok r
      ∧ r.tld = "com" ∧ r.status = "failed"
      ∧ ∃ msg, r.error_message = some ("Download failed after " ++ toString (3 : Nat) ++
          " attempts: " ++ msg))
    ∧ (CZDSClient.download_zone_file {} "xyz" "/app/temp" "20251012" (.ok ())
        (fun _ => .notFound) (fun _ => .ok ())).1
      = .error ("Zone file not found for TLD: " ++ "xyz")
    ∧ (CZDSClient.download_zone_file {} "com" "/app/temp" "20251012" (.ok ())
        (fun _ => .okStream 100 90) (fun _ => .ok ())).1
      = .error "File size mismatch: expected 100, got 90"
    ∧ DownloadService.download_single_tld
        ⟨.ok (), .ok ["xyz"], fun _ => none,
          fun t => .error ("Zone file not found for TLD: " ++ t), fun _ => .ok 0, 0⟩ "xyz"
      = .ok (DownloadService.errorResult "xyz" ("Zone file not found for TLD: " ++ "xyz"),
          [.deleteEv "xyz", .downloadEv "xyz", .logDbEv "xyz" "failed"]) := by
  refine ⟨?_, ?_, ?_, ?_⟩
  · exact c3_amended_download_errors.1 {} "com" "/app/temp" "20251012"
      (fun _ => .timeoutErr) (fun _ => .ok ()) (fun k _ => by trivial)
  · exact c3_amended_download_errors.2.1 {} "xyz" "/app/temp" "20251012"
      (fun _ => .notFound) (fun _ => .ok ()) (by decide) rfl
  · exact (c3_amended_download_errors.2.2.1 {} "com" "/app/temp" "20251012"
      (fun _ => .okStream 100 90) (fun _ => .ok ()) 100 90 (by decide) rfl (by decide)
      (by decide)).trans (by rfl)
  · exact (c3_amended_download_errors.2.2.2
      ⟨.ok (), .ok ["xyz"], fun _ => none,
        fun t => .error ("Zone file not found for TLD: " ++ t), fun _ => .ok 0, 0⟩
      "xyz" ("Zone file not found for TLD: " ++ "xyz") rfl rfl).1

theorem foldl_append_map {α β : Type} (f : α → β) :
    ∀ (xs : List α) (acc : List β),
      xs.foldl (fun t x => t ++ [f x]) acc = acc ++ xs.map f := by
  intro xs
  induction xs with
  | nil => intro acc; simp
  | cons x xs ih => intro acc; simp [ih]

namespace CZDSClient

/-- One scanning step of `replace(".zone", "")` on a list that does not
start with the pattern: the head character is kept. -/
theorem removeZoneAll_cons (c : Char) (rest : List Char)
    (h : ¬ zoneSuffix <+: c :: rest) :
    removeZoneAll (c :: rest) = c :: removeZoneAll rest := by
  rw [removeZoneAll.eq_def]
  split
  · rename_i rest5 heq
    refine absurd ?_ h
    refine ⟨rest5, ?_⟩
    rw [heq]
    rfl
  · rename_i hnm heq
    injection heq with h1 h2
    rw [h1, h2]
  · rename_i heq
    exact absurd heq (by simp)

/-- If `.zone` occurs in `pre ++ ".zone"` only as the final suffix, then
`replace(".zone", "")` removes exactly that suffix. -/
theorem removeZoneAll_only_suffix : ∀ (pre : List Char),
    (∀ i < pre.length, ¬ zoneSuffix <+: (pre ++ zoneSuffix).drop i) →
    removeZoneAll (pre ++ zoneSuffix) = pre := by
  intro pre
  induction pre with
  | nil => intro _; rfl
  | cons c pre ih =>
    intro h
    have h0 : ¬ zoneSuffix <+: c :: (pre ++ zoneSuffix) := by
      have := h 0 (by simp)
      simpa using this
    rw [List.cons_append, removeZoneAll_cons c (pre ++ zoneSuffix) h0]
    rw [ih]
    intro i hi
    have := h (i + 1) (by simp; omega)
    simpa using this

end CZDSClient

/-- C8 counterexample: for a download link whose last path segment contains
`.zone` in the middle as well as at the end, the code's
`replace(".zone", "")` removes both occurrences, so getApprovedTLDs returns
`my.test` where stripping the suffix from the end (as claimed) would give
`my.zone.test`. -/
theorem c8_counterexample :
    CZDSClient.get_approved_tlds (.ok ())
        (.okLinks ["https://czds-api.icann.org/czds/downloads/my.zone.test.zone"])
      = .ok ["my.test"]
    ∧ CZDSClient.tldFromLinkSpec
        "https://czds-api.icann.org/czds/downloads/my.zone.test.zone"
      = "my.zone.test"
    ∧ ("my.test" : String) ≠ "my.zone.test" :=
  ⟨rfl, rfl, by decide⟩

/-- C8 amended: getApprovedTLDs derives each TLD by removing every
occurrence of `.zone` from the last path segment of the link, preserving
the order of the links; when the last segment contains `.zone` only as its
final suffix (the realistic case), this coincides with the claimed
strip-the-suffix-from-the-end derivation. -/
theorem c8_amended_tld_derivation :
    (∀ links : List String,
      CZDSClient.get_approved_tlds (.ok ()) (.okLinks links)
        = .ok (links.map CZDSClient.tldFromLink))
    ∧ (∀ (link : String) (pre : List Char),
        CZDSClient.lastSegment link.data = pre ++ CZDSClient.zoneSuffix →
        (∀ i < pre.length, ¬ CZDSClient.zoneSuffix <+: (pre ++ CZDSClient.zoneSuffix).drop i) →
        CZDSClient.tldFromLink link = ⟨pre⟩
        ∧ CZDSClient.tldFromLinkSpec link = ⟨pre⟩) := by
  constructor
  · intro links
    show Except.ok (links.foldl (fun tlds link => tlds ++ [CZDSClient.tldFromLink link]) [])
      = Except.ok (links.map CZDSClient.tldFromLink)
    rw [foldl_append_map]
    simp
  · intro link pre hseg hno
    constructor
    · unfold CZDSClient.tldFromLink
      rw [hseg, CZDSClient.removeZoneAll_only_suffix pre hno]
    · unfold CZDSClient.tldFromLinkSpec
      rw [hseg, if_pos (List.isSuffixOf_iff_suffix.mpr ⟨pre, rfl⟩)]
      have : (pre ++ CZDSClient.zoneSuffix).length - 5 = pre.length := by
        simp [CZDSClient.zoneSuffix]
      rw [this, List.take_left]

/-- Witness for C8 amended: two realistic links produce their TLDs in
order, and on `com.zone` the code derivation agrees with the claimed
suffix-stripping derivation. -/
theorem c8_witness :
    CZDSClient.get_approved_tlds (.ok ())
        (.okLinks ["https://czds-api.icann.org/czds/downloads/com.zone",
                   "https://czds-api.icann.org/czds/downloads/net.zone"])
      = .ok ["com", "net"]
    ∧ CZDSClient.tldFromLink "https://czds-api.icann.org/czds/downloads/com.zone" = "com"
    ∧ CZDSClient.tldFromLinkSpec "https://czds-api.icann.org/czds/downloads/com.zone"
      = "com" := by
  have h1 := c8_amended_tld_derivation.1
    ["https://czds-api.icann.org/czds/downloads/com.zone",
     "https://czds-api.icann.org/czds/downloads/net.zone"]
  have h2 := c8_amended_tld_derivation.2
    "https://czds-api.icann.org/czds/downloads/com.zone" ("com".data) (by rfl) (by decide)
  exact ⟨h1.trans (by rfl), h2.1.trans (by rfl), h2.2.trans (by rfl)⟩

namespace DownloadService

theorem runLoop_nil (env : SeqEnv) (total i succ failed recs : Nat) (js : JobStatus)
    (evs : List Ev) :
    runLoop env total [] i js succ failed recs evs = (js, evs, .ok (succ, failed, recs)) :=
  rfl

theorem runLoop_cons_error (env : SeqEnv) (total : Nat) (tld : String) (rest : List String)
    (i succ failed recs : Nat) (js : JobStatus) (evs : List Ev) (e : String)
    (h : download_single_tld env tld = .error e) :
    runLoop env total (tld :: rest) i js succ failed recs evs = (js, evs, .error e) := by
  unfold runLoop
  rw [h]

theorem runLoop_cons_ok (env : SeqEnv) (total : Nat) (tld : String) (rest : List String)
    (i succ failed recs : Nat) (js : JobStatus) (evs : List Ev)
    (r : DownloadResult) (evsT : List Ev)
    (h : download_single_tld env tld = .ok (r, evsT)) :
    runLoop env total (tld :: rest) i js succ failed recs evs
      = runLoop env total rest (i + 1) (js.update_progress ((i : Int) + 1) (total : Int) tld)
          (if r.is_success then succ + 1 else succ)
          (if r.is_success then failed else failed + 1)
          (if r.is_success then recs + r.records_count else recs)
          (evs ++ evsT) := by
  simp only [runLoop, h]

/-- The per-TLD loop only appends to the event trace. -/
theorem runLoop_events_extend (env : SeqEnv) (total : Nat) :
    ∀ (tlds : List String) (i succ failed recs : Nat) (js : JobStatus) (evs : List Ev),
      ∃ tail, (runLoop env total tlds i js succ failed recs evs).2.1 = evs ++ tail := by
  intro tlds
  induction tlds with
  | nil =>
    intro i succ failed recs js evs
    exact ⟨[], by simp [runLoop_nil]⟩
  | cons tld rest ih =>
    intro i succ failed recs js evs
    cases hdl : download_single_tld env tld with
    | error e =>
      rw [runLoop_cons_error env total tld rest i succ failed recs js evs e hdl]
      exact ⟨[], by simp⟩
    | ok p =>
      obtain ⟨r, evsT⟩ := p
      rw [runLoop_cons_ok env total tld rest i succ failed recs js evs r evsT hdl]
      obtain ⟨tail2, ht⟩ := ih (i + 1) _ _ _ _ (evs ++ evsT)
      exact ⟨evsT ++ tail2, by rw [ht, List.append_assoc]⟩

theorem hasLogFor_append (tld : String) (l1 l2 : List Ev) :
    hasLogFor tld (l1 ++ l2) = (hasLogFor tld l1 || hasLogFor tld l2) := by
  simp [hasLogFor]

/-- As long as the one pre-`try` statement does not raise,
download_single_tld returns (never raises) and its event trace contains a
DownloadLog write for the TLD — on the success path and on every failure
path. -/
theorem download_single_tld_logs (env : SeqEnv) (tld : String)
    (hnone : env.logStartExn tld = none) :
    ∃ r evs, download_single_tld env tld = .ok (r, evs) ∧ hasLogFor tld evs = true := by
  unfold download_single_tld
  rw [hnone]
  cases hd : env.download tld with
  | error msg => exact ⟨_, _, rfl, by simp [hasLogFor]⟩
  | ok res =>
    by_cases hs : res.is_success = true
    · cases hp : env.process tld with
      | error msg =>
        simp only [hs, if_true]
        exact ⟨_, _, rfl, by simp [hasLogFor]⟩
      | ok n =>
        simp only [hs, if_true]
        exact ⟨_, _, rfl, by simp [hasLogFor]⟩
    · simp only [Bool.not_eq_true] at hs
      simp only [hs, Bool.false_eq_true, if_false]
      exact ⟨_, _, rfl, by simp [hasLogFor]⟩

/-- Every TLD of the list gets a DownloadLog write during the loop,
whatever its download outcome, provided its pre-`try` log call does not
raise. -/
theorem runLoop_logs_all (env : SeqEnv) (total : Nat) :
    ∀ (tlds : List String) (i succ failed recs : Nat) (js : JobStatus) (evs : List Ev),
      (∀ t ∈ tlds, env.logStartExn t = none) →
      ∀ t ∈ tlds, hasLogFor t (runLoop env total tlds i js succ failed recs evs).2.1 = true := by
  intro tlds
  induction tlds with
  | nil =>
    intro i succ failed recs js evs _ t ht
    simp at ht
  | cons tld rest ih =>
    intro i succ failed recs js evs hnone t ht
    obtain ⟨r, evsT, hok, hlog⟩ :=
      download_single_tld_logs env tld (hnone tld (List.mem_cons_self tld rest))
    rw [runLoop_cons_ok env total tld rest i succ failed recs js evs r evsT hok]
    rcases List.mem_cons.mp ht with h | h
    · subst h
      obtain ⟨tail, htail⟩ := runLoop_events_extend env total rest (i + 1) _ _ _ _ (evs ++ evsT)
      rw [htail, List.append_assoc, hasLogFor_append, hasLogFor_append, hlog]
      simp
    · exact ih (i + 1) _ _ _ _ (evs ++ evsT)
        (fun t2 ht2 => hnone t2 (List.mem_cons_of_mem tld ht2)) t h

end DownloadService

/-- C1: whenever the sequential run_full_download is entered with an idle
status, the status it leaves behind is idle again on every exit path —
the no-TLDs early return, the normal completion, and each exceptional exit
(authentication failure, TLD-list failure, or an unhandled exception in the
per-TLD loop), where the model returns the re-raised exception together
with the already-reset status. -/
theorem c1_run_full_download_resets_to_idle (env : DownloadService.SeqEnv)
    (js : JobStatus) (h : js.state = "idle") :
    (DownloadService.run_full_download env js).1.state = "idle" := by
  unfold DownloadService.run_full_download
  rw [show js.is_running = false by simp [JobStatus.is_running, h]]
  simp only [Bool.false_eq_true, if_false]
  cases env.auth with
  | error e => rfl
  | ok u =>
    cases env.tlds with
    | error e => rfl
    | ok tlds =>
      by_cases he : tlds.isEmpty
      · simp only [he, if_true]
        exact h
      · simp only [he, Bool.false_eq_true, if_false]
        rcases hrl : DownloadService.runLoop env tlds.length tlds 0
            (js.start (tlds.length : Int) env.now) 0 0 0 [.authEv, .getTldsEv]
          with ⟨js2, evs, res⟩
        cases res with
        | error e => rfl
        | ok p =>
          obtain ⟨succ, failed, recs⟩ := p
          rfl

/-- Witness for C1: a run whose authentication raises still ends with an
idle status (the exception is returned along with the reset status). -/
theorem c1_witness :
    (DownloadService.run_full_download
        ⟨.error "auth down", .ok ["com"], fun _ => none, fun _ => .ok {
            tld := "com", file_path := "/app/temp/com_20251012.zone.gz",
            file_size := 10, download_duration := 0 },
          fun _ => .ok 3, 0⟩ JobStatus.init).1.state = "idle" :=
  c1_run_full_download_resets_to_idle _ JobStatus.init rfl

/-- C2: a call made while the status is running is a pure no-op — it
returns None, performs no external call (empty event trace, in particular
no download), and leaves the JobStatus unchanged; a call made while idle
proceeds, its first external call being the authentication request. -/
theorem c2_noop_when_running (env : DownloadService.SeqEnv) (js : JobStatus) :
    (js.state = "running" →
      DownloadService.run_full_download env js = (js, [], .ok none))
    ∧ (js.state = "idle" →
      (DownloadService.run_full_download env js).2.1.head?
        = some DownloadService.Ev.authEv) := by
  constructor
  · intro h
    unfold DownloadService.run_full_download
    rw [show js.is_running = true by simp [JobStatus.is_running, h]]
    rfl
  · intro h
    unfold DownloadService.run_full_download
    rw [show js.is_running = false by simp [JobStatus.is_running, h]]
    simp only [Bool.false_eq_true, if_false]
    cases env.auth with
    | error e => rfl
    | ok u =>
      cases env.tlds with
      | error e => rfl
      | ok tlds =>
        by_cases he : tlds.isEmpty
        · simp only [he, if_true]
          rfl
        · simp only [he, Bool.false_eq_true, if_false]
          obtain ⟨tail, htail⟩ := DownloadService.runLoop_events_extend env tlds.length tlds 0
            0 0 0 (js.start (tlds.length : Int) env.now) [.authEv, .getTldsEv]
          rcases hrl : DownloadService.runLoop env tlds.length tlds 0
              (js.start (tlds.length : Int) env.now) 0 0 0 [.authEv, .getTldsEv]
            with ⟨js2, evs, res⟩
          rw [hrl] at htail
          cases res with
          | error e =>
            simp only
            rw [show (js2, evs, Except.error (ε := String)
              (α := Option DownloadService.DownloadSummary) e).2.1 = evs from rfl] at htail
            rw [htail]
            rfl
          | ok p =>
            obtain ⟨succ, failed, recs⟩ := p
            simp only
            rw [show (js2, evs, Except.ok (ε := String)
              (α := Nat × Nat × Nat) (succ, failed, recs)).2.1 = evs from rfl] at htail
            rw [htail]
            rfl

/-- Witness for C2: with a running status the call returns the status,
no events and None unchanged; from idle the first event is the auth call. -/
theorem c2_witness :
    DownloadService.run_full_download
        ⟨.ok (), .ok ["com"], fun _ => none, fun t => .error ("boom " ++ t),
          fun _ => .ok 0, 4⟩
        { JobStatus.init with state := "running", started_at := some 1 }
      = ({ JobStatus.init with state := "running", started_at := some 1 }, [], .ok none)
    ∧ (DownloadService.run_full_download
        ⟨.ok (), .ok ["com"], fun _ => none, fun t => .error ("boom " ++ t),
          fun _ => .ok 0, 4⟩ JobStatus.init).2.1.head?
      = some DownloadService.Ev.authEv := by
  constructor
  · exact (c2_noop_when_running _ _).1 rfl
  · exact (c2_noop_when_running _ _).2 rfl

/-- C4 counterexample: in the parallel orchestrator a TLD whose download
fails produces only the download event — no DownloadLog write reaches the
storage port — refuting the claim that both orchestrators persist a
DownloadLog for failed TLDs as well. -/
theorem c4_counterexample :
    (ParallelDownloadService.parallel_download_single_tld
        ⟨fun t => .ok { tld := t, file_path := "", file_size := 0, download_duration := 0, status := "failed", error_message := some "HTTP 500" }, fun _ => .ok (0, 0)⟩ "xyz").2
      = [.downloadEv "xyz"]
    ∧ DownloadService.hasLogFor "xyz"
        (ParallelDownloadService.parallel_download_single_tld
          ⟨fun t => .ok { tld := t, file_path := "", file_size := 0, download_duration := 0, status := "failed", error_message := some "HTTP 500" }, fun _ => .ok (0, 0)⟩ "xyz").2
      = false :=
  ⟨rfl, rfl⟩

/-- C4 amended: in the sequential orchestrator every TLD of a run gets a
DownloadLog write whatever its outcome, and a failing TLD does not abort
the run (all later TLDs are still processed and logged); in the parallel
orchestrator a DownloadLog is written only on the fully successful path —
a failed download returns a failure dict with only the download event, and
a processing exception likewise writes no log. -/
theorem c4_amended_logging (env : DownloadService.SeqEnv) (js : JobStatus)
    (L : List String) (penv : ParallelDownloadService.ParEnv)
    (tld msg : String) (dres : DownloadResult) (n dur : Nat) :
    (js.state = "idle" → env.auth = .ok () → env.tlds = .ok L →
      (∀ t ∈ L, env.logStartExn t = none) →
      ∀ t ∈ L, DownloadService.hasLogFor t
        (DownloadService.run_full_download env js).2.1 = true)
    ∧ (penv.download tld = .ok dres → dres.is_success = true →
        penv.process tld = .ok (n, dur) →
        DownloadService.hasLogFor tld
          (ParallelDownloadService.parallel_download_single_tld penv tld).2 = true)
    ∧ (penv.download tld = .error msg →
        (ParallelDownloadService.parallel_download_single_tld penv tld).2
          = [.downloadEv tld])
    ∧ (penv.download tld = .ok dres → dres.is_success = false →
        (ParallelDownloadService.parallel_download_single_tld penv tld).2
          = [.downloadEv tld])
    ∧ (penv.download tld = .ok dres → dres.is_success = true →
        penv.process tld = .error msg →
        (ParallelDownloadService.parallel_download_single_tld penv tld).2
          = [.downloadEv tld]) := by
  refine ⟨?_, ?_, ?_, ?_, ?_⟩
  · intro hidle hauth htlds hnone t ht
    have hne : L ≠ [] := by
      intro e
      subst e
      simp at ht
    unfold DownloadService.run_full_download
    rw [show js.is_running = false by simp [JobStatus.is_running, hidle], hauth, htlds]
    simp only [Bool.false_eq_true, if_false]
    rw [show L.isEmpty = false by simpa [List.isEmpty_iff] using hne]
    simp only [Bool.false_eq_true, if_false]
    have hall := DownloadService.runLoop_logs_all env L.length L 0 0 0 0
      (js.start (L.length : Int) env.now) [.authEv, .getTldsEv] hnone t ht
    rcases hrl : DownloadService.runLoop env L.length L 0
        (js.start (L.length : Int) env.now) 0 0 0 [.authEv, .getTldsEv]
      with ⟨js2, evs, res⟩
    rw [hrl] at hall
    cases res with
    | error e => exact hall
    | ok p =>
      obtain ⟨succ, failed, recs⟩ := p
      exact hall
  · intro hd hs hp
    unfold ParallelDownloadService.parallel_download_single_tld
    rw [hd]
    simp only [hs, if_true]
    rw [hp]
    simp [DownloadService.hasLogFor]
  · intro hd
    unfold ParallelDownloadService.parallel_download_single_tld
    rw [hd]
  · intro hd hs
    unfold ParallelDownloadService.parallel_download_single_tld
    rw [hd]
    simp [hs]
  · intro hd hs hp
    unfold ParallelDownloadService.parallel_download_single_tld
    rw [hd]
    simp only [hs, if_true]
    rw [hp]

/-- Witness for C4 amended: a two-TLD sequential run whose first TLD fails
to download still writes a DownloadLog for both TLDs; the parallel success
path writes its log; and the parallel failure paths — a raising download, a
download returning a failed-status result, and a successful download whose
processing raises — each emit only the download event, with no DownloadLog
write. -/
theorem c4_witness :
    (DownloadService.hasLogFor "com"
        (DownloadService.run_full_download
          ⟨.ok (), .ok ["com", "net"], fun _ => none,
            fun t => if t = "com" then .error "HTTP 500"
              else .ok { tld := t, file_path := "/f", file_size := 1, download_duration := 0 },
            fun _ => .ok 2, 9⟩ JobStatus.init).2.1 = true)
    ∧ (DownloadService.hasLogFor "net"
        (DownloadService.run_full_download
          ⟨.ok (), .ok ["com", "net"], fun _ => none,
            fun t => if t = "com" then .error "HTTP 500"
              else .ok { tld := t, file_path := "/f", file_size := 1, download_duration := 0 },
            fun _ => .ok 2, 9⟩ JobStatus.init).2.1 = true)
    ∧ (DownloadService.hasLogFor "net"
        (ParallelDownloadService.parallel_download_single_tld
          ⟨fun t => .ok { tld := t, file_path := "/f", file_size := 1, download_duration := 0 },
            fun _ => .ok (5, 1)⟩ "net").2 = true)
    ∧ ((ParallelDownloadService.parallel_download_single_tld
          ⟨fun _ => .error "timeout", fun _ => .ok (5, 1)⟩ "xyz").2
        = [.downloadEv "xyz"])
    ∧ ((ParallelDownloadService.parallel_download_single_tld
          ⟨fun t => .ok { tld := t, file_path := "", file_size := 0, download_duration := 0, status := "failed", error_message := some "HTTP 500" }, fun _ => .ok (5, 1)⟩ "xyz").2
        = [.downloadEv "xyz"])
    ∧ ((ParallelDownloadService.parallel_download_single_tld
          ⟨fun t => .ok { tld := t, file_path := "/f", file_size := 1, download_duration := 0 }, fun _ => .error "parse boom"⟩ "abc").2
        = [.downloadEv "abc"]) := by
  have h := c4_amended_logging
    ⟨.ok (), .ok ["com", "net"], fun _ => none,
      fun t => if t = "com" then .error "HTTP 500"
        else .ok { tld := t, file_path := "/f", file_size := 1, download_duration := 0 },
      fun _ => .ok 2, 9⟩ JobStatus.init ["com", "net"]
    ⟨fun t => .ok { tld := t, file_path := "/f", file_size := 1, download_duration := 0 },
      fun _ => .ok (5, 1)⟩ "net" "m"
    { tld := "net", file_path := "/f", file_size := 1, download_duration := 0 } 5 1
  have h2 := c4_amended_logging
    ⟨.ok (), .ok [], fun _ => none, fun _ => .error "x", fun _ => .ok 0, 0⟩ JobStatus.init []
    ⟨fun _ => .error "timeout", fun _ => .ok (5, 1)⟩ "xyz" "timeout"
    { tld := "xyz", file_path := "", file_size := 0, download_duration := 0 } 5 1
  have h3 := c4_amended_logging
    ⟨.ok (), .ok [], fun _ => none, fun _ => .error "x", fun _ => .ok 0, 0⟩ JobStatus.init []
    ⟨fun t => .ok { tld := t, file_path := "", file_size := 0, download_duration := 0, status := "failed", error_message := some "HTTP 500" }, fun _ => .ok (5, 1)⟩ "xyz" "m"
    { tld := "xyz", file_path := "", file_size := 0, download_duration := 0, status := "failed", error_message := some "HTTP 500" } 5 1
  have h4 := c4_amended_logging
    ⟨.ok (), .ok [], fun _ => none, fun _ => .error "x", fun _ => .ok 0, 0⟩ JobStatus.init []
    ⟨fun t => .ok { tld := t, file_path := "/f", file_size := 1, download_duration := 0 },
      fun _ => .error "parse boom"⟩ "abc" "parse boom"
    { tld := "abc", file_path := "/f", file_size := 1, download_duration := 0 } 5 1
  refine ⟨?_, ?_, ?_, ?_, ?_, ?_⟩
  · exact h.1 rfl rfl rfl (fun t _ => rfl) "com" (by simp)
  · exact h.1 rfl rfl rfl (fun t _ => rfl) "net" (by simp)
  · exact h.2.1 rfl rfl rfl
  · exact h2.2.2.1 rfl
  · exact h3.2.2.2.1 rfl rfl
  · exact h4.2.2.2.2 rfl rfl rfl

end IcanDL
